import Mathlib

/-!
Verification of the packet codec, framing, negotiation and acknowledgment
registry of the socketIO-client transports module
(`socketIO_client/transports.py`), shallowly embedded in Lean 4.

Python text values are modelled as `String` (Python 2 `unicode`: `len` counts
characters, as does `String.length`).  Python's `str.split(sep, maxsplit)` and
`sep.join(...)` are modelled character-exactly below.  Generators are modelled
as functions returning the finite list of yielded values; a raised `KeyError`
is modelled as `none`.
-/

namespace SIOClient

/-! ## Python string primitives -/

/-- Split a character list at the first occurrence of `sep`: `none` when `sep`
does not occur, otherwise the part before and the part after. -/
def splitOnce (sep : Char) : List Char → Option (List Char × List Char)
  | [] => none
  | c :: cs =>
    if c = sep then some ([], cs)
    else
      match splitOnce sep cs with
      | none => none
      | some (pre, post) => some (c :: pre, post)

/-- Python `text.split(sep, maxsplit)` on character lists: split at most
`maxsplit` times, left to right. -/
def pySplitAux (sep : Char) : Nat → List Char → List (List Char)
  | 0, s => [s]
  | m + 1, s =>
    match splitOnce sep s with
    | none => [s]
    | some (pre, post) => pre :: pySplitAux sep m post

/-- Python `text.split(sep, maxsplit)` on strings. -/
def pySplit (sep : Char) (maxsplit : Nat) (s : String) : List String :=
  (pySplitAux sep maxsplit s.data).map List.asString

/-- Python `text.split(sep)` with no maxsplit (every occurrence splits). -/
def pySplitAll (sep : Char) : List Char → List (List Char)
  | [] => [[]]
  | c :: cs =>
    if c = sep then [] :: pySplitAll sep cs
    else
      match pySplitAll sep cs with
      | [] => [[c]]
      | p :: rest => (c :: p) :: rest

/-- Python `sep.join(parts)` on character lists. -/
def pyJoinAux (sep : Char) : List (List Char) → List Char
  | [] => []
  | [p] => p
  | p :: rest => p ++ sep :: pyJoinAux sep rest

/-- Python `sep.join(parts)` on strings (single-character separator). -/
def pyJoin (sep : Char) (parts : List String) : String :=
  (pyJoinAux sep (parts.map String.data)).asString

/-! ## Decimal rendering (`str(n)` in Python is `Nat.repr` here) -/

theorem digitChar_isDigit (n : Nat) (h : n < 10) :
    (Nat.digitChar n).isDigit = true := by
  interval_cases n <;> decide

theorem toDigitsCore_digits (fuel : Nat) :
    ∀ (n : Nat) (ds : List Char), (∀ c ∈ ds, c.isDigit = true) →
      ∀ c ∈ Nat.toDigitsCore 10 fuel n ds, c.isDigit = true := by
  induction fuel with
  | zero => intro n ds h; simpa [Nat.toDigitsCore] using h
  | succ fuel ih =>
    intro n ds h
    have hd : (Nat.digitChar (n % 10)).isDigit = true :=
      digitChar_isDigit _ (Nat.mod_lt _ (by decide))
    have hds : ∀ c ∈ (Nat.digitChar (n % 10)) :: ds, c.isDigit = true := by
      intro c hc
      rcases List.mem_cons.mp hc with h1 | h2
      · exact h1 ▸ hd
      · exact h c h2
    simp only [Nat.toDigitsCore]
    split
    · exact hds
    · exact ih (n / 10) _ hds

theorem repr_digits (n : Nat) : ∀ c ∈ (Nat.repr n).data, c.isDigit = true := by
  have : (Nat.repr n).data = Nat.toDigitsCore 10 (n + 1) n [] := rfl
  rw [this]
  exact toDigitsCore_digits (n + 1) n [] (by intro c hc; cases hc)

theorem repr_no_colon (n : Nat) : ':' ∉ (Nat.repr n).data := by
  intro h
  exact absurd (repr_digits n ':' h) (by decide)

theorem repr_no_plus (n : Nat) : '+' ∉ (Nat.repr n).data := by
  intro h
  exact absurd (repr_digits n '+' h) (by decide)

/-! ## Split/join facts -/

theorem splitOnce_of_not_mem (sep : Char) (a : List Char) (ha : sep ∉ a) :
    splitOnce sep a = none := by
  induction a with
  | nil => rfl
  | cons c cs ih =>
    have hcs : sep ∉ cs := fun h => ha (List.mem_cons_of_mem _ h)
    have hc : ¬ c = sep := fun h => ha (h ▸ List.mem_cons_self _ _)
    simp [splitOnce, hc, ih hcs]

theorem splitOnce_append (sep : Char) (a r : List Char) (ha : sep ∉ a) :
    splitOnce sep (a ++ sep :: r) = some (a, r) := by
  induction a with
  | nil => simp [splitOnce]
  | cons c cs ih =>
    have hcs : sep ∉ cs := fun h => ha (List.mem_cons_of_mem _ h)
    have hc : ¬ c = sep := fun h => ha (h ▸ List.mem_cons_self _ _)
    simp [splitOnce, hc, ih hcs]

theorem pySplitAux_append (sep : Char) (m : Nat) (a r : List Char)
    (ha : sep ∉ a) :
    pySplitAux sep (m + 1) (a ++ sep :: r) = a :: pySplitAux sep m r := by
  simp [pySplitAux, splitOnce_append sep a r ha]

/-! ## The acknowledgment registry (`_AbstractTransport.__init__` state)

The Python dict `_callback_by_packet_id` is modelled as an association list
with dict semantics: assignment updates in place or appends, `del` removes the
key, lookup of a missing key (`KeyError`) is `none`. -/

/-- Python `d[k] = v`. -/
def dictInsert (k : String) (v : α) : List (String × α) → List (String × α)
  | [] => [(k, v)]
  | p :: rest => if p.1 = k then (k, v) :: rest else p :: dictInsert k v rest

/-- Python `d[k]`, `none` standing for a raised `KeyError`. -/
def dictGet (k : String) : List (String × α) → Option α
  | [] => none
  | p :: rest => if p.1 = k then some p.2 else dictGet k rest

/-- Python `del d[k]`. -/
def dictDel (k : String) : List (String × α) → List (String × α)
  | [] => []
  | p :: rest => if p.1 = k then dictDel k rest else p :: dictDel k rest

/-- The mutable codec state set up by `_AbstractTransport.__init__`:
`self._packet_id = 0` and `self._callback_by_packet_id = {}`.  Callbacks are
opaque values of a type parameter `α`. -/
structure TState (α : Type) where
  packet_id : Nat
  callback_by_packet_id : List (String × α)

/-- `_AbstractTransport.__init__`. -/
def initState (α : Type) : TState α := ⟨0, []⟩

/-- `set_ack_callback`: increment the counter, store the callback under
`str(self._packet_id)`, return `'%s+' % self._packet_id`. -/
def set_ack_callback (callback : α) (s : TState α) : TState α × String :=
  let pid := s.packet_id + 1
  (⟨pid, dictInsert (Nat.repr pid) callback s.callback_by_packet_id⟩,
   Nat.repr pid ++ "+")

/-- `get_ack_callback`: look the id up (a missing id raises `KeyError`,
modelled as `none`), delete the entry, return the callback together with the
updated state. -/
def get_ack_callback (packet_id : String) (s : TState α) :
    Option (α × TState α) :=
  match dictGet packet_id s.callback_by_packet_id with
  | none => none
  | some callback =>
      some (callback,
        ⟨s.packet_id, dictDel packet_id s.callback_by_packet_id⟩)

/-! ## Packet serialization (`send_packet` and the senders built on it) -/

/-- The wire text built at `send_packet` lines 64-65:
`':'.join((str(code), packet_id, path, data))`. -/
def packet_text (codeStr packet_id path data : String) : String :=
  pyJoin ':' [codeStr, packet_id, path, data]

/-- `send_packet(code, path='', data='', callback=None)`: `packet_id` is the
id returned by `set_ack_callback(callback)` when a callback is given, the
empty string otherwise; the joined text is handed to the transport's `send`.
Returns the updated state and the sent text. -/
def send_packet (code : Nat) (path data : String) (callback : Option α)
    (s : TState α) : TState α × String :=
  match callback with
  | none => (s, packet_text (Nat.repr code) "" path data)
  | some cb =>
      let r := set_ack_callback cb s
      (r.1, packet_text (Nat.repr code) r.2 path data)

/-- `send_heartbeat()`: `self.send_packet(2)`. -/
def send_heartbeat (s : TState α) : TState α × String :=
  send_packet 2 "" "" none s

/-! ## JSON serialization (`json.dumps(..., ensure_ascii=False)`)

Python 2's default `json.dumps`: item separator `", "`, key separator `": "`,
strings double-quoted with backslash escapes for the quote, the backslash and
control characters, and — because of `ensure_ascii=False` — all other
characters (non-ASCII included) emitted verbatim. -/

inductive JVal where
  | null : JVal
  | bool (b : Bool) : JVal
  | num (n : Int) : JVal
  | str (s : String) : JVal
  | arr (xs : List JVal) : JVal
  | obj (kvs : List (String × JVal)) : JVal

/-- Two-digit lowercase hex of a byte, as in `\u00XX` escapes. -/
def hexDigits (n : Nat) : String :=
  String.mk [Nat.digitChar (n / 16 % 16), Nat.digitChar (n % 16)]

/-- `json.dumps` escaping of one character inside a string literal
(`ensure_ascii=False`: characters outside the escaped set pass through
verbatim). -/
def jsonEscapeChar (c : Char) : List Char :=
  if c = '"' then ['\\', '"']
  else if c = '\\' then ['\\', '\\']
  else if c = '\x08' then ['\\', 'b']
  else if c = '\x0c' then ['\\', 'f']
  else if c = '\n' then ['\\', 'n']
  else if c = '\r' then ['\\', 'r']
  else if c = '\t' then ['\\', 't']
  else if c.val < 32 then
    '\\' :: 'u' :: '0' :: '0' :: (hexDigits c.toNat).data
  else [c]

/-- A JSON string literal: `"` + escaped characters + `"`. -/
def jsonString (s : String) : String :=
  "\"" ++ (s.data.flatMap jsonEscapeChar).asString ++ "\""

mutual

/-- `json.dumps(v, ensure_ascii=False)` with Python 2's default separators. -/
def jsonDumps : JVal → String
  | .null => "null"
  | .bool true => "true"
  | .bool false => "false"
  | .num n => toString n
  | .str s => jsonString s
  | .arr xs => "[" ++ pyJoinList (jsonDumpsList xs) ++ "]"
  | .obj kvs => "\x7b" ++ pyJoinList (jsonDumpsObj kvs) ++ "\x7d"

def jsonDumpsList : List JVal → List String
  | [] => []
  | v :: rest => jsonDumps v :: jsonDumpsList rest

def jsonDumpsObj : List (String × JVal) → List String
  | [] => []
  | (k, v) :: rest => (jsonString k ++ ": " ++ jsonDumps v) :: jsonDumpsObj rest

/-- `', '.join(items)`. -/
def pyJoinList : List String → String
  | [] => ""
  | [x] => x
  | x :: rest => x ++ ", " ++ pyJoinList rest

end

/-- The `data` argument of `message`: Python's runtime
`isinstance(data, basestring)` check becomes a tagged value. -/
inductive PyData where
  | text (s : String) : PyData
  | other (j : JVal) : PyData

/-- `message(path, data, callback)`: text data goes out verbatim with code 3;
any other data is JSON-serialized (`ensure_ascii=False`) and sent with
code 4. -/
def message (path : String) (data : PyData) (callback : Option α)
    (s : TState α) : TState α × String :=
  match data with
  | .text t => send_packet 3 path t callback s
  | .other j => send_packet 4 path (jsonDumps j) callback s

/-! ## Packet decoding (`recv_packet`) -/

/-- The four local variables of `recv_packet`, initialised to
`None, None, None, None` and mutated as the batch is scanned; the tuple
yielded for each received text is their current value. -/
structure RecvState where
  code : Option String
  packet_id : Option String
  path : Option String
  data : Option String
deriving DecidableEq, Repr

def initRecvState : RecvState := ⟨none, none, none, none⟩

/-- One iteration of the `recv_packet` loop body on `packet_text`:
`packet_parts = packet_text.split(':', 3)`; 4 parts assign all four
variables, 3 parts assign `code, packet_id, path`, 1 part assigns `code`,
any other count assigns nothing. -/
def recvStep (st : RecvState) (packet_text : String) : RecvState :=
  match pySplit ':' 3 packet_text with
  | [a, b, c, d] => ⟨some a, some b, some c, some d⟩
  | [a, b, c] => ⟨some a, some b, some c, st.data⟩
  | [a] => ⟨some a, st.packet_id, st.path, st.data⟩
  | _ => st

/-- The loop of `recv_packet`: each received text updates the variables and
then yields their current value. -/
def recvGo (st : RecvState) : List String → List RecvState
  | [] => []
  | t :: rest =>
      let st' := recvStep st t
      st' :: recvGo st' rest

/-- `recv_packet` on a batch of received texts (the values produced by
`self.recv()`): the list of yielded `(code, packet_id, path, data)` tuples. -/
def recv_packet (texts : List String) : List RecvState :=
  recvGo initRecvState texts

/-! ## Boundary deframing (`_yield_text_from_framed_data`) -/

/-- `BOUNDARY`: U+FFFD, the frame delimiter (its UTF-8 bytes only ever decode
back to this character, so byte-level splitting equals character-level
splitting). -/
def boundary : Char := '�'

/-- Python extended slice `xs[::2]`: every other element, starting with the
first. -/
def everyOther : List α → List α
  | [] => []
  | [a] => [a]
  | a :: _ :: rest => a :: everyOther rest

/-- `izip(parts[1::2], parts[2::2])` over
`parts = framed_data.split(BOUNDARY)`. -/
def framePairs (framed : String) : List (String × String) :=
  let parts := (pySplitAll boundary framed.data).map List.asString
  List.zip (everyOther (parts.drop 1)) (everyOther (parts.drop 2))

/-- The loop of `_yield_text_from_framed_data`: yield `text` exactly when
`text_length == str(len(text))`. -/
def deframeLoop : List (String × String) → List String
  | [] => []
  | (len, text) :: rest =>
      if len = Nat.repr text.length then text :: deframeLoop rest
      else deframeLoop rest

/-- `_yield_text_from_framed_data(framed_data)`: the list of yielded packet
texts. -/
def yield_text_from_framed_data (framed : String) : List String :=
  deframeLoop (framePairs framed)

/-! ## Transport negotiation (`_negotiate_transport`) -/

/-- `TRANSPORTS`. -/
def TRANSPORTS : List String := ["websocket", "xhr-polling", "jsonp-polling"]

/-- The three concrete transport classes. -/
inductive TransportKind where
  | websocket : TransportKind
  | xhr_polling : TransportKind
  | jsonp_polling : TransportKind
deriving DecidableEq, Repr

/-- The class dictionary at the heart of `_negotiate_transport`; `none` is a
`KeyError` on an unknown transport name. -/
def transportByName : String → Option TransportKind
  | "websocket" => some .websocket
  | "xhr-polling" => some .xhr_polling
  | "jsonp-polling" => some .jsonp_polling
  | _ => none

/-- The slice of the session object `_negotiate_transport` consumes. -/
structure Session where
  server_supported_transports : List String

/-- Outcome of negotiation: a constructed transport, a `KeyError` from the
class dictionary, or the raised `SocketIOError`. -/
inductive NegResult where
  | ok (t : TransportKind) : NegResult
  | keyError (name : String) : NegResult
  | socketIOError (msg : String) : NegResult
deriving DecidableEq, Repr

/-- The error text of `_negotiate_transport`:
`' '.join(['could not negotiate a transport:',
'client supports %s but' % ', '.join(client), 'server supports %s' %
', '.join(server)])`. -/
def negotiateMsg (client server : List String) : String :=
  pyJoin ' '
    ["could not negotiate a transport:",
     "client supports " ++ pyJoinList client ++ " but",
     "server supports " ++ pyJoinList server]

/-- The `for supported_transport in client_supported_transports` loop: the
first client entry present in the server's list, if any. -/
def negotiateLoop (server : List String) : List String → Option String
  | [] => none
  | c :: rest => if c ∈ server then some c else negotiateLoop server rest

/-- `_negotiate_transport(client_supported_transports, session, ...)`. -/
def negotiate_transport (client : List String) (session : Session) :
    NegResult :=
  match negotiateLoop session.server_supported_transports client with
  | some c =>
      match transportByName c with
      | some t => .ok t
      | none => .keyError c
  | none =>
      .socketIOError (negotiateMsg client session.server_supported_transports)

/-- A driver for the claims about successive `set_ack_callback` calls: run one
call per callback in the given list, collecting the returned packet ids. -/
def runSets (cbs : List α) (s : TState α) : TState α × List String :=
  match cbs with
  | [] => (s, [])
  | cb :: rest =>
      let r := set_ack_callback cb s
      let r2 := runSets rest r.1
      (r2.1, r.2 :: r2.2)

/-! ## Generic helper lemmas -/

theorem asString_data (l : List Char) : l.asString.data = l := rfl

theorem data_asString (s : String) : s.data.asString = s := rfl

theorem string_data_append (s t : String) : (s ++ t).data = s.data ++ t.data :=
  String.data_append s t

theorem dictGet_dictInsert_self (k : String) (v : α) (d : List (String × α)) :
    dictGet k (dictInsert k v d) = some v := by
  induction d with
  | nil => simp [dictInsert, dictGet]
  | cons p rest ih =>
    by_cases h : p.1 = k
    · simp [dictInsert, dictGet, h]
    · simp [dictInsert, dictGet, h, ih]

theorem mem_dictInsert (k : String) (v : α) (d : List (String × α)) :
    ∀ p ∈ dictInsert k v d, p ∈ d ∨ p = (k, v) := by
  induction d with
  | nil => intro p hp; simp [dictInsert] at hp; simp [hp]
  | cons q rest ih =>
    intro p hp
    by_cases h : q.1 = k
    · simp [dictInsert, h] at hp
      rcases hp with h1 | h2
      · exact Or.inr h1
      · exact Or.inl (List.mem_cons_of_mem _ h2)
    · simp [dictInsert, h] at hp
      rcases hp with h1 | h2
      · exact Or.inl (h1 ▸ List.mem_cons_self _ _)
      · rcases ih p h2 with h3 | h3
        · exact Or.inl (List.mem_cons_of_mem _ h3)
        · exact Or.inr h3

theorem dictGet_dictDel_self (k : String) (d : List (String × α)) :
    dictGet k (dictDel k d) = none := by
  induction d with
  | nil => rfl
  | cons p rest ih =>
    by_cases h : p.1 = k
    · simp [dictDel, h, ih]
    · simp [dictDel, dictGet, h, ih]

theorem dictGet_dictDel_ne (k k' : String) (hne : k' ≠ k)
    (d : List (String × α)) :
    dictGet k' (dictDel k d) = dictGet k' d := by
  induction d with
  | nil => rfl
  | cons p rest ih =>
    by_cases h : p.1 = k
    · have h2 : ¬ k = k' := fun hh => hne hh.symm
      simp [dictDel, dictGet, h, h2, ih]
    · simp [dictDel, dictGet, h, ih]

theorem dictGet_eq_none (k : String) (d : List (String × α))
    (h : ∀ p ∈ d, p.1 ≠ k) :
    dictGet k d = none := by
  induction d with
  | nil => rfl
  | cons p rest ih =>
    have hp : p.1 ≠ k := h p (List.mem_cons_self _ _)
    have hrest : ∀ q ∈ rest, q.1 ≠ k := fun q hq =>
      h q (List.mem_cons_of_mem _ hq)
    simp [dictGet, hp, ih hrest]

/-! ## Claims -/

/-- C1: joining string fields `code`, `packetId`, `path`, `data` with `':'`
exactly as `send_packet` does (`':'.join((str(code), packet_id, path,
data))`), and splitting the result on `':'` with `maxsplit = 3` as
`recv_packet` does, recovers the same four values, provided `packetId` and
`path` contain no `':'` (the code field, being `str` of an integer, never
contains one). -/
theorem C1_round_trip (code : Nat) (packet_id path data : String)
    (hpid : ':' ∉ packet_id.data) (hpath : ':' ∉ path.data) :
    pySplit ':' 3 (packet_text (Nat.repr code) packet_id path data)
      = [Nat.repr code, packet_id, path, data] := by
  have hc : ':' ∉ (Nat.repr code).data := repr_no_colon code
  have hdata : (packet_text (Nat.repr code) packet_id path data).data
      = (Nat.repr code).data
          ++ ':' :: (packet_id.data ++ ':' :: (path.data ++ ':' :: data.data)) := by
    simp [packet_text, pyJoin, pyJoinAux, asString_data]
  show (pySplitAux ':' 3 (packet_text (Nat.repr code) packet_id path
      data).data).map List.asString = _
  rw [hdata]
  rw [show (3 : Nat) = 2 + 1 from rfl, pySplitAux_append ':' 2 _ _ hc]
  rw [show (2 : Nat) = 1 + 1 from rfl, pySplitAux_append ':' 1 _ _ hpid]
  rw [show (1 : Nat) = 0 + 1 from rfl, pySplitAux_append ':' 0 _ _ hpath]
  rfl

/-- Witness for C1 at a concrete packet. -/
theorem C1_round_trip_witness :
    pySplit ':' 3 (packet_text (Nat.repr 3) "1+" "/chat" "a:b")
      = [Nat.repr 3, "1+", "/chat", "a:b"] :=
  C1_round_trip 3 "1+" "/chat" "a:b" (by decide) (by decide)

/-- C4 counterexample: `send_heartbeat` sends the text `"2:::"`, not the
truncated `"2"` the claim asserts. -/
theorem C4_counterexample :
    (send_heartbeat (initState Unit)).2 = "2:::"
      ∧ (send_heartbeat (initState Unit)).2 ≠ "2" := by
  constructor
  · rfl
  · decide

/-- C4 amended: the wire text of `send_packet` is always the full four-field
join `code:packetId:path:data` — trailing empty fields are NOT truncated —
and in particular `send_heartbeat` emits `"2:::"` (code 2 followed by three
empty fields), not the bare `"2"`. -/
theorem C4_wire_format (code : Nat) (packet_id path data : String)
    (s : TState Unit) :
    packet_text (Nat.repr code) packet_id path data
        = Nat.repr code ++ ":" ++ packet_id ++ ":" ++ path ++ ":" ++ data
      ∧ (send_packet code path data none s).2
        = Nat.repr code ++ ":" ++ "" ++ ":" ++ path ++ ":" ++ data
      ∧ (send_heartbeat s).2 = "2:::" := by
  have hj : ∀ a b c d : String,
      packet_text a b c d = a ++ ":" ++ b ++ ":" ++ c ++ ":" ++ d := by
    intro a b c d
    apply String.ext
    simp [packet_text, pyJoin, pyJoinAux, asString_data, string_data_append]
  refine ⟨hj _ _ _ _, ?_, rfl⟩
  show packet_text (Nat.repr code) "" path data = _
  exact hj _ _ _ _

/-- Witness for C4's amended statement at a concrete input. -/
theorem C4_wire_format_witness :
    packet_text (Nat.repr 5) "2+" "/nsp" "body"
        = Nat.repr 5 ++ ":" ++ "2+" ++ ":" ++ "/nsp" ++ ":" ++ "body"
      ∧ (send_packet 5 "/nsp" "body" none (initState Unit)).2
        = Nat.repr 5 ++ ":" ++ "" ++ ":" ++ "/nsp" ++ ":" ++ "body"
      ∧ (send_heartbeat (initState Unit)).2 = "2:::" :=
  C4_wire_format 5 "2+" "/nsp" "body" (initState Unit)

/-- C5: `message` with no callback sends text data verbatim as a MESSAGE
packet (code 3, wire text `3::path:data`) and any other data JSON-serialized
as a JSON_MESSAGE packet (code 4, wire text `4::path:json`); concretely
`message("/chat", "hello", None)` sends `3::/chat:hello` and
`message("/chat", {"a": 1}, None)` sends `4::/chat:` followed by the JSON
body of the dict. -/
theorem C5_message (path t : String) (j : JVal) (s : TState Unit) :
    (message path (.text t) none s).2 = "3::" ++ path ++ ":" ++ t
      ∧ (message path (.other j) none s).2 = "4::" ++ path ++ ":" ++ jsonDumps j
      ∧ (message "/chat" (.text "hello") none s).2 = "3::/chat:hello"
      ∧ (message "/chat" (.other (.obj [("a", .num 1)])) none s).2
        = "4::/chat:\x7b\"a\": 1\x7d" := by
  refine ⟨?_, ?_, rfl, rfl⟩
  · apply String.ext
    simp [message, send_packet, packet_text, pyJoin, pyJoinAux, asString_data,
      string_data_append, show Nat.repr 3 = "3" from rfl]
  · apply String.ext
    simp [message, send_packet, packet_text, pyJoin, pyJoinAux, asString_data,
      string_data_append, show Nat.repr 4 = "4" from rfl]

/-- The `recv_packet` loop body leaves the four variables unchanged when the
split yields a count other than 4, 3 or 1. -/
theorem recvStep_of_other_count (st : RecvState) (t : String)
    (h4 : (pySplit ':' 3 t).length ≠ 4) (h3 : (pySplit ':' 3 t).length ≠ 3)
    (h1 : (pySplit ':' 3 t).length ≠ 1) :
    recvStep st t = st := by
  unfold recvStep
  cases hl : pySplit ':' 3 t with
  | nil => rfl
  | cons a l =>
    cases l with
    | nil => exact absurd (by rw [hl]; rfl) h1
    | cons b l =>
      cases l with
      | nil => rfl
      | cons c l =>
        cases l with
        | nil => exact absurd (by rw [hl]; rfl) h3
        | cons d l =>
          cases l with
          | nil => exact absurd (by rw [hl]; rfl) h4
          | cons e l => rfl

/-- C2 counterexample: the raw text `"a:b"` splits into exactly 2 fields, yet
`recv_packet` still yields a tuple for it (the all-`None` tuple at batch
start), contradicting "no tuple is yielded for it". -/
theorem C2_counterexample :
    pySplit ':' 3 "a:b" = ["a", "b"]
      ∧ recv_packet ["a:b"] = [⟨none, none, none, none⟩]
      ∧ recv_packet ["a:b"] ≠ [] := by
  refine ⟨rfl, rfl, by decide⟩

/-- C2 amended: a raw text unit whose split count is not 1, 3 or 4 leaves the
decoder's four variables unchanged, raises no error, and the remaining units
in the batch are still processed — but the unit is NOT silently skipped: the
loop still yields one tuple for it, carrying the values left over from the
most recently decoded unit (all `None` at batch start). -/
theorem C2_malformed_unit (st : RecvState) (t : String) (rest : List String)
    (h4 : (pySplit ':' 3 t).length ≠ 4) (h3 : (pySplit ':' 3 t).length ≠ 3)
    (h1 : (pySplit ':' 3 t).length ≠ 1) :
    recvStep st t = st ∧ recvGo st (t :: rest) = st :: recvGo st rest := by
  have hs := recvStep_of_other_count st t h4 h3 h1
  exact ⟨hs, by simp [recvGo, hs]⟩

/-- Witness for C2's amended statement: the 2-field unit `"a:b"` in the middle
of a batch re-yields the carried tuple and the rest of the batch is still
decoded. -/
theorem C2_malformed_unit_witness :
    recvStep ⟨some "4", some "1", some "/p", some "x"⟩ "a:b"
        = ⟨some "4", some "1", some "/p", some "x"⟩
      ∧ recvGo ⟨some "4", some "1", some "/p", some "x"⟩ ["a:b", "2:::"]
        = ⟨some "4", some "1", some "/p", some "x"⟩
            :: recvGo ⟨some "4", some "1", some "/p", some "x"⟩ ["2:::"] :=
  C2_malformed_unit ⟨some "4", some "1", some "/p", some "x"⟩ "a:b" ["2:::"]
    (by decide) (by decide) (by decide)

/-- C3 counterexample: after the 4-field unit `"4:1:/p:x"`, the 3-field unit
`"3:2:/q"` is yielded with `data = some "x"` — the stale value from the
previous unit — not with `data` absent as the claim asserts. -/
theorem C3_counterexample :
    pySplit ':' 3 "3:2:/q" = ["3", "2", "/q"]
      ∧ recv_packet ["4:1:/p:x", "3:2:/q"]
        = [⟨some "4", some "1", some "/p", some "x"⟩,
           ⟨some "3", some "2", some "/q", some "x"⟩]
      ∧ (⟨some "3", some "2", some "/q", some "x"⟩ : RecvState).data ≠ none := by
  refine ⟨rfl, rfl, by decide⟩

/-- C3 amended: a 3-field unit yields its own `code`, `packetId` and `path`
but a `data` carried over from the previously yielded tuple, and a 1-field
unit yields its own `code` with `packetId`, `path` and `data` all carried
over; the carried fields are `None` only when no earlier unit in the batch
assigned them (in particular for the first unit of a batch). -/
theorem C3_carry_over (st : RecvState) (t3 t1 : String) (rest : List String)
    (a b c a1 : String)
    (h3 : pySplit ':' 3 t3 = [a, b, c])
    (h1 : pySplit ':' 3 t1 = [a1]) :
    recvGo st (t3 :: rest)
        = ⟨some a, some b, some c, st.data⟩
            :: recvGo ⟨some a, some b, some c, st.data⟩ rest
      ∧ recvGo st (t1 :: rest)
        = ⟨some a1, st.packet_id, st.path, st.data⟩
            :: recvGo ⟨some a1, st.packet_id, st.path, st.data⟩ rest
      ∧ recv_packet [t1]
        = [⟨some a1, none, none, none⟩] := by
  have hs3 : recvStep st t3 = ⟨some a, some b, some c, st.data⟩ := by
    unfold recvStep; rw [h3]
  have hs1 : ∀ st' : RecvState, recvStep st' t1
      = ⟨some a1, st'.packet_id, st'.path, st'.data⟩ := by
    intro st'; unfold recvStep; rw [h1]
  refine ⟨by simp [recvGo, hs3], by simp [recvGo, hs1 st], ?_⟩
  have h0 : recvStep initRecvState t1 = ⟨some a1, none, none, none⟩ :=
    hs1 initRecvState
  show recvGo initRecvState [t1] = _
  simp [recvGo, h0]

/-- Witness for C3's amended statement: the example of the counterexample,
where the stale `data` of the 3-field unit and the stale fields of a 1-field
unit are visible. -/
theorem C3_carry_over_witness :
    recvGo ⟨some "4", some "1", some "/p", some "x"⟩ ["3:2:/q"]
        = [⟨some "3", some "2", some "/q", some "x"⟩]
      ∧ recvGo ⟨some "4", some "1", some "/p", some "x"⟩ ["0"]
        = [⟨some "0", some "1", some "/p", some "x"⟩]
      ∧ recv_packet ["0"] = [⟨some "0", none, none, none⟩] := by
  have h := C3_carry_over ⟨some "4", some "1", some "/p", some "x"⟩
    "3:2:/q" "0" [] "3" "2" "/q" "0" (by decide) (by decide)
  exact ⟨h.1, h.2.1, h.2.2⟩

/-- C6: the boundary deframer yields exactly the text fragments whose paired
declared decimal length equals the fragment's character length, in order,
dropping mismatched pairs without error; the body
`�5�hello�3�bye�` deframes to exactly
`["hello", "bye"]`, and changing the first declared length to 6 drops
`"hello"` while `"bye"` is still yielded. -/
theorem C6_deframe (framed : String) (pairs : List (String × String)) :
    yield_text_from_framed_data framed
        = ((framePairs framed).filter
            (fun p => p.1 == Nat.repr p.2.length)).map Prod.snd
      ∧ deframeLoop pairs
        = (pairs.filter (fun p => p.1 == Nat.repr p.2.length)).map Prod.snd
      ∧ yield_text_from_framed_data "�5�hello�3�bye�"
        = ["hello", "bye"]
      ∧ yield_text_from_framed_data "�6�hello�3�bye�"
        = ["bye"] := by
  have hloop : ∀ ps : List (String × String),
      deframeLoop ps
        = (ps.filter (fun p => p.1 == Nat.repr p.2.length)).map Prod.snd := by
    intro ps
    induction ps with
    | nil => rfl
    | cons p rest ih =>
      by_cases h : p.1 = Nat.repr p.2.length
      · simp [deframeLoop, h, List.filter, ih, beq_iff_eq]
      · have hb : (p.1 == Nat.repr p.2.length) = false := beq_false_of_ne h
        simp [deframeLoop, h, List.filter, ih, hb]
  exact ⟨hloop _, hloop _, by decide, by decide⟩

theorem negotiateLoop_of_first (server pre : List String) (c : String)
    (post : List String)
    (hpre : ∀ p ∈ pre, p ∉ server) (hc : c ∈ server) :
    negotiateLoop server (pre ++ c :: post) = some c := by
  induction pre with
  | nil => simp [negotiateLoop, hc]
  | cons q qs ih =>
    have hq : q ∉ server := hpre q (List.mem_cons_self _ _)
    have hqs : ∀ p ∈ qs, p ∉ server := fun p hp =>
      hpre p (List.mem_cons_of_mem _ hp)
    simp [negotiateLoop, hq, ih hqs]

theorem negotiateLoop_none (server client : List String)
    (h : ∀ p ∈ client, p ∉ server) :
    negotiateLoop server client = none := by
  induction client with
  | nil => rfl
  | cons q qs ih =>
    have hq : q ∉ server := h q (List.mem_cons_self _ _)
    have hqs : ∀ p ∈ qs, p ∉ server := fun p hp =>
      h p (List.mem_cons_of_mem _ hp)
    simp [negotiateLoop, hq, ih hqs]

/-- C7: for every client preference list whose entries are known transport
names, the negotiator returns the transport class matching the first client
entry also present in `session.server_supported_transports`; when no entry
matches it raises a `SocketIOError` whose message contains both the comma
joined client list and the comma joined server list. -/
theorem C7_negotiation (client : List String) (session : Session)
    (hknown : ∀ c ∈ client, (transportByName c).isSome = true) :
    (∀ pre c post, client = pre ++ c :: post →
        (∀ p ∈ pre, p ∉ session.server_supported_transports) →
        c ∈ session.server_supported_transports →
        ∃ t, transportByName c = some t
          ∧ negotiate_transport client session = .ok t)
  ∧ ((∀ c ∈ client, c ∉ session.server_supported_transports) →
      negotiate_transport client session
          = .socketIOError
              (negotiateMsg client session.server_supported_transports)
      ∧ ∃ x y z, negotiateMsg client session.server_supported_transports
          = x ++ pyJoinList client ++ y
              ++ pyJoinList session.server_supported_transports ++ z) := by
  constructor
  · intro pre c post hcl hpre hc
    have hmem : c ∈ client := by
      rw [hcl]; exact List.mem_append_right _ (List.mem_cons_self _ _)
    obtain ⟨t, ht⟩ := Option.isSome_iff_exists.mp (hknown c hmem)
    refine ⟨t, ht, ?_⟩
    unfold negotiate_transport
    rw [hcl, negotiateLoop_of_first _ pre c post hpre hc]
    simp [ht]
  · intro hall
    constructor
    · unfold negotiate_transport
      rw [negotiateLoop_none _ _ hall]
    · refine ⟨"could not negotiate a transport:" ++ " " ++ "client supports ",
        " but" ++ " " ++ "server supports ", "", ?_⟩
      apply String.ext
      simp [negotiateMsg, pyJoin, pyJoinAux, asString_data,
        string_data_append]

/-- Witness for C7: the spec's two concrete negotiations. -/
theorem C7_negotiation_witness :
    negotiate_transport ["websocket", "xhr-polling"] ⟨["xhr-polling"]⟩
        = .ok .xhr_polling
      ∧ negotiate_transport ["websocket"] ⟨["xhr-polling"]⟩
        = .socketIOError (negotiateMsg ["websocket"] ["xhr-polling"]) := by
  constructor
  · obtain ⟨h1, _⟩ :=
      C7_negotiation ["websocket", "xhr-polling"] ⟨["xhr-polling"]⟩ (by decide)
    obtain ⟨t, ht, hok⟩ :=
      h1 ["websocket"] "xhr-polling" [] rfl (by decide) (by decide)
    have hts : transportByName "xhr-polling"
        = some TransportKind.xhr_polling := by decide
    rw [hts] at ht
    rw [hok, ← Option.some.inj ht]
  · obtain ⟨_, h2⟩ :=
      C7_negotiation ["websocket"] ⟨["xhr-polling"]⟩ (by decide)
    exact (h2 (by decide)).1

/-- Packet ids handed out by successive `set_ack_callback` calls, starting
from an arbitrary state. -/
theorem runSets_ids (cbs : List α) : ∀ s : TState α,
    (runSets cbs s).2
      = (List.range cbs.length).map
          (fun i => Nat.repr (s.packet_id + i + 1) ++ "+") := by
  induction cbs with
  | nil => intro s; rfl
  | cons cb rest ih =>
    intro s
    show (Nat.repr (s.packet_id + 1) ++ "+")
        :: (runSets rest (set_ack_callback cb s).1).2 = _
    rw [ih]
    have hpid : (set_ack_callback cb s).1.packet_id = s.packet_id + 1 := rfl
    rw [hpid, List.length_cons, List.range_succ_eq_map, List.map_cons,
      List.map_map]
    have htail :
        List.map (fun i => Nat.repr (s.packet_id + 1 + i + 1) ++ "+")
            (List.range rest.length)
          = List.map
              ((fun i => Nat.repr (s.packet_id + i + 1) ++ "+") ∘ Nat.succ)
              (List.range rest.length) := by
      apply List.map_congr_left
      intro i _
      simp only [Function.comp_apply, Nat.succ_eq_add_one]
      congr 3
      omega
    rw [htail]

/-- C8: starting from a freshly constructed transport, the n-th
`set_ack_callback` call (counting from 1) returns the string `str(n) + "+"`,
so successive calls hand out `"1+"`, `"2+"`, ... — strictly increasing
integer ids starting at 1. -/
theorem C8_ack_ids (α : Type) (cbs : List α) :
    (runSets cbs (initState α)).2
      = (List.range cbs.length).map (fun i => Nat.repr (i + 1) ++ "+") := by
  rw [runSets_ids]
  simp [initState]

/-- C9: a registered id is claimable exactly once: `get_ack_callback` returns
the stored callback and deletes the entry, so a second claim of the same id
(and any claim of a never-registered id) is a `KeyError` (`none`), while all
other registry entries are untouched. -/
theorem C9_ack_claimed_once (α : Type) (s : TState α) (pid : String) (cb : α)
    (h : dictGet pid s.callback_by_packet_id = some cb) :
    ∃ s' : TState α,
      get_ack_callback pid s = some (cb, s')
      ∧ dictGet pid s'.callback_by_packet_id = none
      ∧ get_ack_callback pid s' = none
      ∧ (∀ k, k ≠ pid →
          dictGet k s'.callback_by_packet_id
            = dictGet k s.callback_by_packet_id)
      ∧ (∀ k, dictGet k s.callback_by_packet_id = none →
          get_ack_callback k s = none) := by
  refine ⟨⟨s.packet_id, dictDel pid s.callback_by_packet_id⟩,
    ?_, ?_, ?_, ?_, ?_⟩
  · simp [get_ack_callback, h]
  · exact dictGet_dictDel_self pid _
  · simp [get_ack_callback, dictGet_dictDel_self]
  · intro k hk
    exact dictGet_dictDel_ne pid k hk _
  · intro k hk
    simp [get_ack_callback, hk]

/-- Witness for C9 on a registry holding ids "1" and "2". -/
theorem C9_ack_claimed_once_witness :
    ∃ s' : TState Nat,
      get_ack_callback "1" (⟨2, [("1", 7), ("2", 8)]⟩ : TState Nat)
          = some (7, s')
      ∧ dictGet "1" s'.callback_by_packet_id = none
      ∧ get_ack_callback "1" s' = none
      ∧ (∀ k, k ≠ "1" →
          dictGet k s'.callback_by_packet_id
            = dictGet k ((⟨2, [("1", 7), ("2", 8)]⟩ :
                TState Nat)).callback_by_packet_id)
      ∧ (∀ k, dictGet k ((⟨2, [("1", 7), ("2", 8)]⟩ :
            TState Nat)).callback_by_packet_id = none →
          get_ack_callback k (⟨2, [("1", 7), ("2", 8)]⟩ : TState Nat)
            = none) :=
  C9_ack_claimed_once Nat ⟨2, [("1", 7), ("2", 8)]⟩ "1" 7 (by decide)

/-- C10: the id string returned by `set_ack_callback` carries a trailing `'+'`
while the callback is stored under the digits-only key `str(n)`; hence, over
any registry whose keys are `'+'`-free (as all reachable registries are),
claiming with the exact returned id is a `KeyError` — the caller must strip
the `'+'` first. -/
theorem C10_returned_id_not_key (α : Type) (s : TState α) (cb : α)
    (hkeys : ∀ p ∈ s.callback_by_packet_id, '+' ∉ p.1.data) :
    dictGet (Nat.repr (s.packet_id + 1))
        (set_ack_callback cb s).1.callback_by_packet_id = some cb
      ∧ (set_ack_callback cb s).2 = Nat.repr (s.packet_id + 1) ++ "+"
      ∧ get_ack_callback (set_ack_callback cb s).2 (set_ack_callback cb s).1
        = none := by
  refine ⟨dictGet_dictInsert_self _ _ _, rfl, ?_⟩
  have hplus : '+' ∈ (Nat.repr (s.packet_id + 1) ++ "+").data := by
    rw [string_data_append]
    exact List.mem_append_right _ (by decide)
  have hkeys' : ∀ p ∈ (set_ack_callback cb s).1.callback_by_packet_id,
      p.1 ≠ Nat.repr (s.packet_id + 1) ++ "+" := by
    intro p hp
    rcases mem_dictInsert _ _ _ p hp with hmem | heq
    · intro hcontra
      exact hkeys p hmem (hcontra ▸ hplus)
    · intro hcontra
      have h1 : p.1 = Nat.repr (s.packet_id + 1) := by rw [heq]
      rw [h1] at hcontra
      rw [← hcontra] at hplus
      exact repr_no_plus _ hplus
  have hnone : dictGet (Nat.repr (s.packet_id + 1) ++ "+")
      (set_ack_callback cb s).1.callback_by_packet_id = none :=
    dictGet_eq_none _ _ hkeys'
  show get_ack_callback (Nat.repr (s.packet_id + 1) ++ "+")
      (set_ack_callback cb s).1 = none
  simp [get_ack_callback, hnone]

/-- Witness for C10 on a registry already holding id "1". -/
theorem C10_returned_id_not_key_witness :
    dictGet (Nat.repr (1 + 1))
        (set_ack_callback 9 (⟨1, [("1", 7)]⟩ : TState Nat)).1.callback_by_packet_id
        = some 9
      ∧ (set_ack_callback 9 (⟨1, [("1", 7)]⟩ : TState Nat)).2
        = Nat.repr (1 + 1) ++ "+"
      ∧ get_ack_callback (set_ack_callback 9 (⟨1, [("1", 7)]⟩ : TState Nat)).2
          (set_ack_callback 9 (⟨1, [("1", 7)]⟩ : TState Nat)).1 = none :=
  C10_returned_id_not_key Nat ⟨1, [("1", 7)]⟩ 9 (by decide)

end SIOClient
